import Mathlib

/-!
Verification of the marketing-tactic classifier apps
(`src/streamlit_app.py` and `src/pages /1_app.py`).

Strings are embedded as lists of Unicode code points (`List Nat`); Python's
`str.lower` / `str.upper` are modelled on the ASCII letter range (the
dictionaries and example texts in the repository are ASCII), `str.strip`
strips the ASCII whitespace code points, and the Python substring test
`t in s` is `isSubstr`.
-/

namespace TacticApp

/-- A text value: a list of Unicode code points. -/
abbrev Str := List Nat

/-- Code points of a Lean string literal, used to write concrete inputs. -/
def lit (s : String) : Str := s.toList.map Char.toNat

/-- `str.lower` on one code point (ASCII range, as used by the app's data). -/
def lowerN (n : Nat) : Nat := if 65 ≤ n ∧ n ≤ 90 then n + 32 else n

/-- `str.upper` on one code point (ASCII range). -/
def upperN (n : Nat) : Nat := if 97 ≤ n ∧ n ≤ 122 then n - 32 else n

/-- Python `str.lower()`. -/
def pyLower (s : Str) : Str := s.map lowerN

/-- Python `str.upper()`. -/
def pyUpper (s : Str) : Str := s.map upperN

/-- Whitespace code points stripped by Python `str.strip()` (ASCII part). -/
def isSpaceN (n : Nat) : Bool := n == 32 || (9 ≤ n && n ≤ 13)

/-- Python `str.strip()`: drop whitespace from both ends. -/
def pyStrip (s : Str) : Str :=
  ((s.dropWhile isSpaceN).reverse.dropWhile isSpaceN).reverse

/-- `isPrefixN t s` holds when `t` is an initial segment of `s`. -/
def isPrefixN : Str → Str → Bool
  | [], _ => true
  | _ :: _, [] => false
  | a :: as, b :: bs => (a == b) && isPrefixN as bs

/-- Python's substring test `t in s` (true for the empty `t`). -/
def isSubstr : Str → Str → Bool
  | t, [] => decide (t = [])
  | t, c :: rest => isPrefixN t (c :: rest) || isSubstr t rest

/-- A cell of the uploaded table: a Python scalar or the list-of-strings
value produced by the second app's classifier. -/
inductive Cell where
  | str (s : Str)
  | num (n : Int)
  | strs (l : List String)
  | na
deriving DecidableEq, Repr

/-- A trigger-phrase dictionary in iteration order: category name paired
with its phrases.  (In Python the phrases live in a `set`, whose iteration
order is arbitrary; the list fixes one such order.) -/
abbrev Dictionary := List (String × List Str)

/-- The `results` dict built by `detect_tactics`: the integer flag entries,
in insertion order, and the `matched_terms` list.  (In Python both live in
one dict; no dictionary in this repository uses a category literally named
`matched_terms`, so the two parts never interfere and are kept separate.) -/
structure TacticResults where
  flags : List (String × Nat)
  matched_terms : List Str
deriving DecidableEq, Repr

/-- The two flag entries `detect_tactics` initializes
(`{'urgency_marketing': 0, 'exclusive_marketing': 0}`). -/
def initFlags : List (String × Nat) :=
  [("urgency_marketing", 0), ("exclusive_marketing", 0)]

/-- The all-clear result returned for non-string input. -/
def emptyResults : TacticResults :=
  { flags := initFlags, matched_terms := [] }

/-- Python dict assignment `results[tactic] = 1`: overwrite the first entry
with that key when one is present, append a new entry otherwise. -/
def setFlag (fs : List (String × Nat)) (k : String) : List (String × Nat) :=
  match fs with
  | [] => [(k, 1)]
  | p :: ps => if p.1 == k then (p.1, 1) :: ps else p :: setFlag ps k

/-- The body of the `for tactic, terms in dictionaries.items()` loop of
`detect_tactics`: fold the category's terms over the running results. -/
def detectStep (text_lower : Str) (results : TacticResults)
    (p : String × List Str) : TacticResults :=
  p.2.foldl (fun results t =>
    if isSubstr t text_lower then
      { flags := setFlag results.flags p.1,
        matched_terms := results.matched_terms ++ [t] }
    else results) results

/-- `detect_tactics` from `src/streamlit_app.py` (lines 28-42) on the
inputs its guard `pd.isna(text) or not isinstance(text, str)` evaluates
without raising: a non-string cell short-circuits to the empty result;
otherwise the text is lowercased once and every (category, term) pair
whose term occurs in it sets that category's flag to 1 and appends the
term to `matched_terms`.  For a list cell the guard itself can raise —
`pd.isna` returns a boolean ndarray there — and that error path is
modelled by `detect_tactics_checked` below, which consults `isnaRaises`
before delegating here. -/
def detect_tactics (text : Cell) (dictionaries : Dictionary) : TacticResults :=
  match text with
  | Cell.str s => dictionaries.foldl (detectStep (pyLower s)) emptyResults
  | _ => emptyResults

/-- Does the guard `if pd.isna(text) or ...` of `detect_tactics` raise?
On scalar cells `pd.isna` returns a plain bool, so never.  On a list cell
it returns a boolean ndarray: the truth test of a multi-element array
raises `ValueError` ("the truth value of an array with more than one
element is ambiguous"); a one-element array truth-tests to its element
(`False` for a string element), so the guard proceeds and the non-string
branch returns the empty result; the empty array's truth test raises on
NumPy >= 1.25 (modelled as raising; older NumPy merely warned and gave
`False` — the theorems below do not rely on the empty-list case). -/
def isnaRaises (text : Cell) : Bool :=
  match text with
  | Cell.strs l => decide (l.length ≠ 1)
  | _ => false

/-- The `ValueError` NumPy raises when the truth value of an ambiguous
boolean array is requested. -/
inductive NpError where
  | valueError
deriving DecidableEq, Repr

/-- `detect_tactics` including the error path of its `pd.isna` guard:
raises `ValueError` when the guard's truth test is ambiguous (multi-element
list cell), and otherwise behaves as `detect_tactics`. -/
def detect_tactics_checked (text : Cell) (dictionaries : Dictionary) :
    Except NpError TacticResults :=
  if isnaRaises text then Except.error NpError.valueError
  else Except.ok (detect_tactics text dictionaries)

/-- `classify` from `src/pages /1_app.py` (lines 26-30): the list of
category names, in dictionary order, with at least one term occurring in
the lowercased text; `[]` for non-string input. -/
def classify (text : Cell) (dictionaries : Dictionary) : List String :=
  match text with
  | Cell.str s =>
    let t := pyLower s
    (dictionaries.filter (fun p => p.2.any (fun trm => isSubstr trm t))).map Prod.fst
  | _ => []

/-- Look up a flag entry by key (first occurrence), as `results[k]` would. -/
def flagLookup (fs : List (String × Nat)) (k : String) : Option Nat :=
  (fs.find? (fun p => p.1 == k)).map Prod.snd

/-- `text_lower`-relative match test for one category entry: does any of its
terms occur in the text?  Used to state the characterization lemmas. -/
def matchedIn (text_lower : Str) (dictionaries : Dictionary) (k : String) : Bool :=
  dictionaries.any (fun p => p.1 == k && p.2.any (fun t => isSubstr t text_lower))

/-- All terms of the dictionary that occur in `text_lower`, in dictionary
order: the value `matched_terms` ends up with. -/
def allMatches (text_lower : Str) (dictionaries : Dictionary) : List Str :=
  dictionaries.flatMap (fun p => p.2.filter (fun t => isSubstr t text_lower))

/-- An in-memory dataframe: the column list and, per row, the cell under
each column name (a total function; names outside `cols` are irrelevant). -/
structure DataFrame where
  cols : List String
  data : List (String → Cell)

/-- The error pandas raises for `df[col]` when `col` is absent; the spec
calls this case a `ConfigurationError`. -/
inductive PdError where
  | keyError (col : String)
deriving DecidableEq, Repr

/-- Python `', '.join(terms)`. -/
def joinComma : List Str → Str
  | [] => []
  | t :: rest => rest.foldl (fun acc u => acc ++ [44, 32] ++ u) t

/-- The columns `process_data` assigns on the result frame. -/
def addedCols : List String :=
  ["urgency_detected", "exclusive_detected", "matched_terms"]

/-- One output row of `process_data`: the three assigned columns read from
this row's detection results, every other column read from the input row.
(`d['urgency_marketing']` and `d['exclusive_marketing']` are always present
in the results dict, so the `.getD 0` default is never taken.) -/
def annotateRow (statement_column : String) (dictionaries : Dictionary)
    (row : String → Cell) : String → Cell :=
  let d := detect_tactics (row statement_column) dictionaries
  fun c =>
    if c = "matched_terms" then Cell.str (joinComma d.matched_terms)
    else if c = "exclusive_detected" then
      Cell.num ((flagLookup d.flags "exclusive_marketing").getD 0)
    else if c = "urgency_detected" then
      Cell.num ((flagLookup d.flags "urgency_marketing").getD 0)
    else row c

/-- `process_data` from `src/streamlit_app.py` (lines 61-72): `df[col]`
raises a `KeyError` when the chosen column is missing (before any row is
processed); otherwise every row is classified and the result is a copy of
the input frame with `urgency_detected`, `exclusive_detected` and
`matched_terms` assigned (appended as new columns unless the input already
has a column of that name, which pandas overwrites in place). -/
def process_data (df : DataFrame) (statement_column : String)
    (dictionaries : Dictionary) : Except PdError DataFrame :=
  if statement_column ∈ df.cols then
    Except.ok
      { cols := df.cols ++ addedCols.filter (fun c => !df.cols.contains c),
        data := df.data.map (annotateRow statement_column dictionaries) }
  else
    Except.error (PdError.keyError statement_column)

/-- The `Run classifier` handler of `src/pages /1_app.py` (line 88):
`df["tactics"] = df[text_col].apply(lambda x: classify(x, dictionaries))`.
`df[text_col]` raises a `KeyError` when the column is missing; otherwise
each row gains a `tactics` cell holding the list of detected categories. -/
def run_classifier (df : DataFrame) (text_col : String)
    (dictionaries : Dictionary) : Except PdError DataFrame :=
  if text_col ∈ df.cols then
    Except.ok
      { cols := df.cols ++ (if df.cols.contains "tactics" then [] else ["tactics"]),
        data := df.data.map (fun row => fun c =>
          if c = "tactics" then Cell.strs (classify (row text_col) dictionaries)
          else row c) }
  else
    Except.error (PdError.keyError text_col)

/-!  The dictionary-configuration parsers.  The JSON editor of
`src/pages /1_app.py` (lines 73-83) runs `json.loads` and then
`{k: set(v) for k, v in user_dict.items()}` inside
`except (ValueError, TypeError)`; the main app of `src/streamlit_app.py`
(lines 103-108) splits a textarea on newlines.  -/

/-- A decoded JSON value (`json.loads` output). -/
inductive JValue where
  | jnull
  | jbool (b : Bool)
  | jnum (n : Int)
  | jstr (s : Str)
  | jarr (elems : List JValue)
  | jobj (fields : List (String × JValue))

/-- Is the value hashable in Python (usable as a `set` element)? -/
def isHashable : JValue → Bool
  | JValue.jarr _ => false
  | JValue.jobj _ => false
  | _ => true

/-- Python `set(v)`: `none` models the `TypeError` raised when `v` is not
iterable or contains an unhashable element.  Iterating a string yields its
characters, iterating a dict yields its keys.  (A Python `set` also
deduplicates and forgets order; the claims below only inspect membership,
so the element list is kept as is.) -/
def pySet : JValue → Option (List JValue)
  | JValue.jarr xs => if xs.all isHashable then some xs else none
  | JValue.jstr s => some (s.map (fun c => JValue.jstr [c]))
  | JValue.jobj fs => some (fs.map (fun p => JValue.jstr (lit p.1)))
  | _ => none

/-- The dict comprehension `{k: set(v) for k, v in user_dict.items()}`,
left to right, stopping at the first `TypeError`. -/
def collectSets : List (String × JValue) → Option (List (String × List JValue))
  | [] => some []
  | (k, v) :: rest => do
    let s ← pySet v
    let d ← collectSets rest
    pure ((k, s) :: d)

/-- Outcome of the `Apply changes` handler: a parsed dictionary, an error
caught by `except (ValueError, TypeError)` (reported to the user), or an
exception that escapes the handler. -/
inductive ApplyResult where
  | ok (dicts : List (String × List JValue))
  | caught
  | uncaught

/-- The `Apply changes` handler of `src/pages /1_app.py` (lines 73-83).
Input `none` models text `json.loads` rejects (`JSONDecodeError`, a
`ValueError`, is caught).  A decoded top-level value that is not an object
hits `user_dict.items()` and raises an `AttributeError`, which the
`except (ValueError, TypeError)` clause does not catch.  On an object, each
value is converted with `set(v)`; a `TypeError` there is caught.  No phrase
is trimmed, lowercased or discarded. -/
def applyChanges : Option JValue → ApplyResult
  | none => ApplyResult.caught
  | some (JValue.jobj fields) =>
    match collectSets fields with
    | some d => ApplyResult.ok d
    | none => ApplyResult.caught
  | some _ => ApplyResult.uncaught

/-- Is the decoded value a JSON object? -/
def isObjB : JValue → Bool
  | JValue.jobj _ => true
  | _ => false

/-- Python `text.split('\n')`: split at every newline, keeping empties. -/
def splitNL : Str → List Str
  | [] => [[]]
  | c :: rest =>
    if c == 10 then [] :: splitNL rest
    else
      match splitNL rest with
      | [] => [[c]]
      | w :: ws => (c :: w) :: ws

/-- The newline-delimited term parsing of `src/streamlit_app.py`
(lines 103-108): `set(term.strip().lower() for term in text.split('\n')
if term.strip())`.  Each kept term is stripped, then lowercased; blank
lines are dropped.  (The surrounding `set(...)` deduplicates and forgets
order; the claims below only inspect the terms themselves, so the list is
kept as is.)  This parsing never raises. -/
def parse_terms (text : Str) : List Str :=
  (splitNL text).filterMap (fun t =>
    if pyStrip t = [] then none else some (pyLower (pyStrip t)))

/-!  The Sentence Exploder's `clean_sentence` has no implementation under
`src/` (the repository ships only the two classifier apps), so it is
modelled from the spec below.  -/

/-- Modelled from the spec: the emoji code points removed by
`clean_sentence` when stripping is enabled (the spec's "every emoji code
point"; the common emoji blocks and the variation selector). -/
def isEmojiN (n : Nat) : Bool :=
  (127744 ≤ n && n ≤ 129791) || (9728 ≤ n && n ≤ 10175) ||
    n == 65039 || n == 8419

/-- Modelled from the spec: typographic apostrophes are normalized to the
ASCII apostrophe. -/
def normApostrophe (s : Str) : Str :=
  s.map (fun n => if n == 8216 || n == 8217 then 39 else n)

/-- Collapse every run of whitespace to one single space (the first step
of the spec's whitespace normalization; trimming happens afterwards). -/
def squeezeWS : Str → Str
  | [] => []
  | [c] => if isSpaceN c then [32] else [c]
  | c :: d :: rest =>
    if isSpaceN c then
      if isSpaceN d then squeezeWS (d :: rest)
      else 32 :: squeezeWS (d :: rest)
    else c :: squeezeWS (d :: rest)

/-- Append a period when the string is non-empty and does not already end
in `.` (46), `!` (33) or `?` (63); the empty string is returned unchanged. -/
def endPunct (s : Str) : Str :=
  match s.getLast? with
  | none => []
  | some n => if n = 46 ∨ n = 33 ∨ n = 63 then s else s ++ [46]

/-- Modelled from the spec: `clean_sentence(text, strip_emoji)` of the
missing Sentence Exploder.  Normalizes typographic apostrophes, optionally
removes every emoji code point, collapses whitespace runs to single spaces
and trims both ends, then appends a period when the result is non-empty
and does not already end in `.`, `!` or `?`.  Total, hence "never fails". -/
def clean_sentence (text : Str) (stripEmoji : Bool) : Str :=
  let s1 := normApostrophe text
  let s2 := if stripEmoji then s1.filter (fun n => !isEmojiN n) else s1
  endPunct (pyStrip (squeezeWS s2))

/-- Pointwise dictionary inclusion: same category names in the same order,
and every phrase of the smaller dictionary's category present in the larger
one's. -/
def dictLE (d d' : Dictionary) : Bool :=
  d.length == d'.length &&
    (d.zip d').all (fun q => q.1.1 == q.2.1 && q.1.2.all (fun t => q.2.2.contains t))

/-- A one-row sample frame used to instantiate the table theorems. -/
def sampleFrame : DataFrame :=
  { cols := ["Statement"],
    data := [fun _ => Cell.str (lit "hurry, exclusive offer")] }

/-- A sample dictionary used to instantiate the table theorems. -/
def sampleDict : Dictionary := [("urgency_marketing", [lit "hurry"])]

/-- The single row of `clashFrame`. -/
def clashRow : String → Cell :=
  fun c => if c = "text" then Cell.str (lit "hi") else Cell.num 5

/-- A frame whose `matched_terms` column clashes with a result column. -/
def clashFrame : DataFrame :=
  { cols := ["text", "matched_terms"], data := [clashRow] }

/-- A small dictionary, pointwise below `bigDict`. -/
def smallDict : Dictionary := [("urgency_marketing", [lit "hurry"])]

/-- A dictionary extending `smallDict` phrase-wise. -/
def bigDict : Dictionary := [("urgency_marketing", [lit "hurry", lit "act now"])]

/-! Character-level lemmas about the modelled `lower`, `upper`, `strip`. -/

theorem lowerN_upperN (n : Nat) : lowerN (upperN n) = lowerN n := by
  simp only [lowerN, upperN]; split_ifs <;> omega

theorem lowerN_lowerN (n : Nat) : lowerN (lowerN n) = lowerN n := by
  simp only [lowerN]; split_ifs <;> omega

theorem isSpaceN_iff (n : Nat) : isSpaceN n = true ↔ (n = 32 ∨ (9 ≤ n ∧ n ≤ 13)) := by
  simp [isSpaceN]

theorem isSpaceN_lowerN (n : Nat) : isSpaceN (lowerN n) = isSpaceN n := by
  simp only [lowerN]
  split_ifs with h
  · have h1 : isSpaceN (n + 32) = false := by
      rw [← Bool.not_eq_true, isSpaceN_iff]; omega
    have h2 : isSpaceN n = false := by
      rw [← Bool.not_eq_true, isSpaceN_iff]; omega
    rw [h1, h2]
  · rfl

theorem pyLower_pyUpper (s : Str) : pyLower (pyUpper s) = pyLower s := by
  induction s with
  | nil => rfl
  | cons c cs ih =>
    simp only [pyLower, pyUpper, List.map_cons] at *
    rw [lowerN_upperN]
    exact congrArg _ ih

theorem pyLower_pyLower (s : Str) : pyLower (pyLower s) = pyLower s := by
  induction s with
  | nil => rfl
  | cons c cs ih =>
    simp only [pyLower, List.map_cons] at *
    rw [lowerN_lowerN]
    exact congrArg _ ih

/-! Substring-test characterizations. -/

theorem isPrefixN_iff (t s : Str) : isPrefixN t s = true ↔ t <+: s := by
  induction t generalizing s with
  | nil => exact iff_of_true rfl ⟨s, rfl⟩
  | cons a as ih =>
    cases s with
    | nil => simp [isPrefixN]
    | cons b bs => simp [isPrefixN, List.cons_prefix_cons, ih]

theorem isSubstr_iff (t s : Str) : isSubstr t s = true ↔ t <:+: s := by
  induction s with
  | nil => simp [isSubstr, List.infix_nil]
  | cons c cs ih => simp [isSubstr, isPrefixN_iff, ih, List.infix_cons_iff]

/-! The results dict: `setFlag` and `flagLookup`. -/

theorem flagLookup_setFlag_self (fs : List (String × Nat)) (k : String) :
    flagLookup (setFlag fs k) k = some 1 := by
  induction fs with
  | nil => simp [setFlag, flagLookup, List.find?]
  | cons p ps ih =>
    by_cases h : p.1 = k
    · subst h
      simp [setFlag, flagLookup, List.find?]
    · have hb : (p.1 == k) = false := beq_eq_false_iff_ne.mpr h
      simp only [setFlag, flagLookup, List.find?, hb] at *
      simpa [hb] using ih

theorem flagLookup_setFlag_ne (fs : List (String × Nat)) (k k' : String)
    (h : ¬ k' = k) : flagLookup (setFlag fs k) k' = flagLookup fs k' := by
  have hb : (k == k') = false := beq_eq_false_iff_ne.mpr (fun he => h he.symm)
  induction fs with
  | nil => simp [setFlag, flagLookup, List.find?, hb]
  | cons p ps ih =>
    by_cases hp : p.1 = k
    · subst hp
      simp [setFlag, flagLookup, List.find?, hb]
    · have hbp : (p.1 == k) = false := beq_eq_false_iff_ne.mpr hp
      by_cases hp' : p.1 = k'
      · subst hp'
        simp [setFlag, flagLookup, List.find?, hbp]
      · have hbp' : (p.1 == k') = false := beq_eq_false_iff_ne.mpr hp'
        simp only [setFlag, flagLookup, List.find?, hbp, hbp',
          Bool.false_eq_true, if_false, cond_false] at *
        exact ih

theorem setFlag_setFlag (fs : List (String × Nat)) (k : String) :
    setFlag (setFlag fs k) k = setFlag fs k := by
  induction fs with
  | nil => simp [setFlag]
  | cons p ps ih =>
    by_cases h : p.1 = k
    · subst h
      simp [setFlag]
    · have hb : (p.1 == k) = false := beq_eq_false_iff_ne.mpr h
      simp [setFlag, hb, ih]

theorem mem_map_fst_setFlag (fs : List (String × Nat)) (k k' : String) :
    k' ∈ (setFlag fs k).map Prod.fst ↔ k' ∈ fs.map Prod.fst ∨ k' = k := by
  induction fs with
  | nil => simp [setFlag]
  | cons p ps ih =>
    by_cases h : p.1 = k
    · subst h
      simp [setFlag]
      tauto
    · have hb : (p.1 == k) = false := beq_eq_false_iff_ne.mpr h
      simp [setFlag, hb, ih]
      tauto

/-! Characterizing the `detect_tactics` folds. -/

theorem detectStep_eq (tl : Str) (r : TacticResults) (p : String × List Str) :
    detectStep tl r p =
      { flags := if p.2.any (fun t => isSubstr t tl) then setFlag r.flags p.1
                 else r.flags,
        matched_terms := r.matched_terms ++ p.2.filter (fun t => isSubstr t tl) } := by
  obtain ⟨cat, ts⟩ := p
  induction ts generalizing r with
  | nil => simp [detectStep]
  | cons t ts ih =>
    have step : detectStep tl r (cat, t :: ts)
        = detectStep tl
            (if isSubstr t tl then
              { flags := setFlag r.flags cat,
                matched_terms := r.matched_terms ++ [t] }
             else r) (cat, ts) := rfl
    rw [step, ih]
    cases h : isSubstr t tl with
    | true =>
      rw [List.any_cons, List.filter_cons, h]
      simp only [h, Bool.true_or, if_true, cond_true]
      cases hts : ts.any (fun x => isSubstr x tl) with
      | true => simp [hts, setFlag_setFlag]
      | false => simp [hts]
    | false =>
      rw [List.any_cons, List.filter_cons, h]
      simp [h]

theorem foldl_detectStep_matched (tl : Str) (d : Dictionary) (r : TacticResults) :
    (d.foldl (detectStep tl) r).matched_terms
      = r.matched_terms ++ allMatches tl d := by
  induction d generalizing r with
  | nil => simp [allMatches]
  | cons p d ih =>
    simp only [List.foldl_cons]
    rw [ih, detectStep_eq]
    simp [allMatches]

theorem foldl_detectStep_flagLookup (tl : Str) (d : Dictionary)
    (r : TacticResults) (k : String) :
    flagLookup (d.foldl (detectStep tl) r).flags k
      = if matchedIn tl d k then some 1 else flagLookup r.flags k := by
  induction d generalizing r with
  | nil => simp [matchedIn]
  | cons p d ih =>
    have mcons : matchedIn tl (p :: d) k
        = ((p.1 == k && p.2.any (fun t => isSubstr t tl)) || matchedIn tl d k) := by
      simp [matchedIn]
    simp only [List.foldl_cons]
    rw [ih, detectStep_eq, mcons]
    by_cases hk : p.1 = k
    · subst hk
      cases hm : p.2.any (fun t => isSubstr t tl) with
      | true => simp [hm, flagLookup_setFlag_self]
      | false => simp [hm]
    · have hb : (p.1 == k) = false := beq_eq_false_iff_ne.mpr hk
      cases hm : p.2.any (fun t => isSubstr t tl) with
      | true => simp [hm, hb, flagLookup_setFlag_ne _ _ _ (fun he => hk he.symm)]
      | false => simp [hm, hb]

theorem foldl_detectStep_keys (tl : Str) (d : Dictionary)
    (r : TacticResults) (k : String) :
    k ∈ (d.foldl (detectStep tl) r).flags.map Prod.fst
      ↔ k ∈ r.flags.map Prod.fst ∨ matchedIn tl d k = true := by
  induction d generalizing r with
  | nil => simp [matchedIn]
  | cons p d ih =>
    have mcons : matchedIn tl (p :: d) k
        = ((p.1 == k && p.2.any (fun t => isSubstr t tl)) || matchedIn tl d k) := by
      simp [matchedIn]
    simp only [List.foldl_cons]
    rw [ih, detectStep_eq, mcons]
    cases hm : p.2.any (fun t => isSubstr t tl) with
    | true =>
      simp only [hm, if_true, mem_map_fst_setFlag, Bool.and_true, Bool.or_eq_true,
        beq_iff_eq]
      constructor
      · rintro ((hx | hx) | hx)
        · exact Or.inl hx
        · exact Or.inr (Or.inl hx.symm)
        · exact Or.inr (Or.inr hx)
      · rintro (hx | hx | hx)
        · exact Or.inl (Or.inl hx)
        · exact Or.inl (Or.inr hx.symm)
        · exact Or.inr hx
    | false => simp [hm]

theorem matchedIn_iff (tl : Str) (d : Dictionary) (k : String) :
    matchedIn tl d k = true ↔ ∃ ts, (k, ts) ∈ d ∧ ∃ t ∈ ts, t <:+: tl := by
  simp only [matchedIn, List.any_eq_true, Bool.and_eq_true, beq_iff_eq, isSubstr_iff]
  constructor
  · rintro ⟨p, hp, hk, t, ht, hsub⟩
    subst hk
    exact ⟨p.2, Prod.mk.eta.symm ▸ hp, t, ht, hsub⟩
  · rintro ⟨ts, hmem, t, ht, hsub⟩
    exact ⟨(k, ts), hmem, rfl, t, ht, hsub⟩

theorem mem_allMatches_iff (tl : Str) (d : Dictionary) (t : Str) :
    t ∈ allMatches tl d ↔ ∃ p, p ∈ d ∧ t ∈ p.2 ∧ t <:+: tl := by
  simp only [allMatches, List.mem_flatMap, List.mem_filter, isSubstr_iff, and_assoc]

theorem detect_flag_iff (s : Str) (d : Dictionary) (k : String) :
    flagLookup (detect_tactics (Cell.str s) d).flags k = some 1
      ↔ ∃ ts, (k, ts) ∈ d ∧ ∃ t ∈ ts, t <:+: pyLower s := by
  rw [← matchedIn_iff (pyLower s) d k]
  show flagLookup ((d.foldl (detectStep (pyLower s)) emptyResults)).flags k = some 1 ↔ _
  rw [foldl_detectStep_flagLookup]
  by_cases hm : matchedIn (pyLower s) d k = true
  · simp [hm]
  · have hm' : matchedIn (pyLower s) d k = false := by simpa using hm
    simp only [hm', Bool.false_eq_true, if_false]
    constructor
    · intro hx
      by_cases h1 : k = "urgency_marketing"
      · subst h1; simp [flagLookup, emptyResults, initFlags, List.find?] at hx
      · by_cases h2 : k = "exclusive_marketing"
        · subst h2; simp [flagLookup, emptyResults, initFlags, List.find?] at hx
        · have hb1 : ("urgency_marketing" == k) = false :=
            beq_eq_false_iff_ne.mpr (fun he => h1 he.symm)
          have hb2 : ("exclusive_marketing" == k) = false :=
            beq_eq_false_iff_ne.mpr (fun he => h2 he.symm)
          simp [flagLookup, emptyResults, initFlags, List.find?, hb1, hb2] at hx
    · intro hx
      exact absurd hx (by simp [hm'])

theorem detect_matched_eq (s : Str) (d : Dictionary) :
    (detect_tactics (Cell.str s) d).matched_terms = allMatches (pyLower s) d := by
  show (d.foldl (detectStep (pyLower s)) emptyResults).matched_terms = _
  rw [foldl_detectStep_matched]
  simp [emptyResults]

theorem classify_mem_iff (s : Str) (d : Dictionary) (k : String) :
    k ∈ classify (Cell.str s) d
      ↔ ∃ ts, (k, ts) ∈ d ∧ ∃ t ∈ ts, t <:+: pyLower s := by
  simp only [classify, List.mem_map, List.mem_filter, List.any_eq_true, isSubstr_iff]
  constructor
  · rintro ⟨p, ⟨hp, t, ht, hsub⟩, hk⟩
    subst hk
    exact ⟨p.2, Prod.mk.eta.symm ▸ hp, t, ht, hsub⟩
  · rintro ⟨ts, hmem, t, ht, hsub⟩
    exact ⟨(k, ts), ⟨hmem, t, ht, hsub⟩, rfl⟩

/-! Lemmas about `pyStrip` and `pyLower` used for the parsed terms. -/

theorem dropWhile_dropWhile (p : Nat → Bool) (l : Str) :
    (l.dropWhile p).dropWhile p = l.dropWhile p := by
  induction l with
  | nil => rfl
  | cons a l ih =>
    cases h : p a with
    | true => simpa [List.dropWhile, h] using ih
    | false => simp [List.dropWhile, h]

theorem dropWhile_eq_self_of_head (p : Nat → Bool) (l : Str)
    (h : ∀ a, l.head? = some a → p a = false) : l.dropWhile p = l := by
  cases l with
  | nil => rfl
  | cons a l => simp [List.dropWhile, h a rfl]

theorem head_dropWhile_false (p : Nat → Bool) (l : Str) (a : Nat)
    (h : (l.dropWhile p).head? = some a) : p a = false := by
  have hd := List.head?_dropWhile_not p l
  rw [h] at hd
  simpa using hd

theorem reverse_dropWhile_reverse_prefix (p : Nat → Bool) (x : Str) :
    (x.reverse.dropWhile p).reverse <+: x := by
  have h : x.reverse.dropWhile p <:+ x.reverse := List.dropWhile_suffix p
  have h2 := List.reverse_prefix.mpr h
  rwa [List.reverse_reverse] at h2

theorem pyStrip_prefix_dropWhile (s : Str) :
    pyStrip s <+: s.dropWhile isSpaceN := by
  rw [pyStrip]
  exact reverse_dropWhile_reverse_prefix isSpaceN (s.dropWhile isSpaceN)

theorem dropWhile_pyStrip (s : Str) :
    (pyStrip s).dropWhile isSpaceN = pyStrip s := by
  apply dropWhile_eq_self_of_head
  intro a ha
  obtain ⟨u, hu⟩ := pyStrip_prefix_dropWhile s
  have hhead : (s.dropWhile isSpaceN).head? = some a := by
    rw [← hu]
    cases hps : pyStrip s with
    | nil => rw [hps] at ha; simp at ha
    | cons b bs =>
      rw [hps] at ha
      simp at ha
      simp [hps, ha]
  exact head_dropWhile_false isSpaceN s a hhead

theorem pyStrip_pyStrip (s : Str) : pyStrip (pyStrip s) = pyStrip s := by
  have hrev : (pyStrip s).reverse
      = ((s.dropWhile isSpaceN).reverse).dropWhile isSpaceN := by
    rw [pyStrip, List.reverse_reverse]
  show (((pyStrip s).dropWhile isSpaceN).reverse.dropWhile isSpaceN).reverse = pyStrip s
  rw [dropWhile_pyStrip, hrev, dropWhile_dropWhile, ← hrev, List.reverse_reverse]

theorem dropWhile_isSpaceN_map_lowerN (l : Str) :
    (l.map lowerN).dropWhile isSpaceN = (l.dropWhile isSpaceN).map lowerN := by
  rw [List.dropWhile_map lowerN isSpaceN l]
  congr 1
  apply congrArg (fun p => l.dropWhile p)
  funext n
  exact isSpaceN_lowerN n

theorem pyStrip_pyLower (s : Str) : pyStrip (pyLower s) = pyLower (pyStrip s) := by
  simp only [pyStrip, pyLower]
  rw [dropWhile_isSpaceN_map_lowerN, ← List.map_reverse,
    dropWhile_isSpaceN_map_lowerN, ← List.map_reverse]

/-! `endPunct` always ends in a sentence terminator (or stays empty). -/

theorem endPunct_terminator (s : Str) :
    endPunct s = [] ∨
      ∃ n, (endPunct s).getLast? = some n ∧ (n = 46 ∨ n = 33 ∨ n = 63) := by
  cases h : s.getLast? with
  | none => left; simp [endPunct, h]
  | some n =>
    right
    by_cases hp : n = 46 ∨ n = 33 ∨ n = 63
    · exact ⟨n, by simp [endPunct, h, hp], hp⟩
    · refine ⟨46, ?_, Or.inl rfl⟩
      simp [endPunct, h, hp, List.getLast?_concat]

/-! Properties of the configuration parsers. -/

theorem parse_terms_mem (s t : Str) (h : t ∈ parse_terms s) :
    pyStrip t = t ∧ pyLower t = t ∧ t ≠ [] := by
  simp only [parse_terms, List.mem_filterMap] at h
  obtain ⟨u, _, hcond⟩ := h
  by_cases hq : pyStrip u = []
  · simp [hq] at hcond
  · simp only [hq, if_false, Option.some.injEq] at hcond
    subst hcond
    refine ⟨?_, pyLower_pyLower _, ?_⟩
    · rw [pyStrip_pyLower, pyStrip_pyStrip]
    · intro hx
      exact hq (by simpa [pyLower] using hx)

theorem collectSets_mem (fields : List (String × JValue))
    (d : List (String × List JValue)) (h : collectSets fields = some d) :
    ∀ p ∈ d, ∃ v, (p.1, v) ∈ fields ∧ pySet v = some p.2 := by
  induction fields generalizing d with
  | nil =>
    simp only [collectSets, Option.some.injEq] at h
    subst h
    simp
  | cons kv rest ih =>
    obtain ⟨k, v⟩ := kv
    simp only [collectSets] at h
    cases hv : pySet v with
    | none => rw [hv] at h; simp at h
    | some sv =>
      rw [hv] at h
      cases hr : collectSets rest with
      | none => rw [hr] at h; simp at h
      | some dr =>
        rw [hr] at h
        simp at h
        subst h
        intro p hp
        rcases List.mem_cons.mp hp with hp | hp
        · subst hp
          exact ⟨v, List.mem_cons_self _ _, hv⟩
        · obtain ⟨w, hw, hpw⟩ := ih dr hr p hp
          exact ⟨w, List.mem_cons_of_mem _ hw, hpw⟩

theorem applyChanges_not_obj (j : JValue) (h : isObjB j = false) :
    applyChanges (some j) = ApplyResult.uncaught := by
  cases j <;> first | rfl | simp [isObjB] at h

theorem applyChanges_jobj_not_uncaught (fields : List (String × JValue)) :
    ¬ applyChanges (some (JValue.jobj fields)) = ApplyResult.uncaught := by
  simp only [applyChanges]
  cases collectSets fields <;> simp

/-! Pointwise dictionary inclusion. -/

theorem dictLE_spec (d d' : Dictionary) (h : dictLE d d' = true) :
    ∀ p ∈ d, ∃ q ∈ d', p.1 = q.1 ∧ ∀ t ∈ p.2, t ∈ q.2 := by
  induction d generalizing d' with
  | nil => simp
  | cons p ps ih =>
    cases d' with
    | nil => simp [dictLE] at h
    | cons q qs =>
      simp only [dictLE, List.zip_cons_cons, List.all_cons, Bool.and_eq_true,
        beq_iff_eq, List.length_cons] at h
      obtain ⟨hlen, ⟨hname, hsub⟩, hrest⟩ := h
      intro r hr
      rcases List.mem_cons.mp hr with hr | hr
      · subst hr
        refine ⟨q, List.mem_cons_self _ _, hname, ?_⟩
        intro t ht
        have hc := List.all_eq_true.mp hsub t ht
        simpa using hc
      · have hd : dictLE ps qs = true := by
          simp only [dictLE, Bool.and_eq_true, beq_iff_eq]
          exact ⟨by omega, hrest⟩
        obtain ⟨qq, hq, hh⟩ := ih qs hd r hr
        exact ⟨qq, List.mem_cons_of_mem _ hq, hh⟩

/-! The table pipelines. -/

theorem annotateRow_not_added (col : String) (d : Dictionary)
    (row : String → Cell) (c : String) (h : ¬ c ∈ addedCols) :
    annotateRow col d row c = row c := by
  simp only [addedCols, List.mem_cons, List.not_mem_nil, or_false, not_or] at h
  obtain ⟨h1, h2, h3⟩ := h
  simp [annotateRow, h1, h2, h3]

theorem process_data_ok (df : DataFrame) (col : String) (d : Dictionary)
    (h : col ∈ df.cols) :
    process_data df col d = Except.ok
      { cols := df.cols ++ addedCols.filter (fun c => !df.cols.contains c),
        data := df.data.map (annotateRow col d) } := by
  simp [process_data, h]

theorem run_classifier_ok (df : DataFrame) (col : String) (d : Dictionary)
    (h : col ∈ df.cols) :
    run_classifier df col d = Except.ok
      { cols := df.cols ++ (if df.cols.contains "tactics" then [] else ["tactics"]),
        data := df.data.map (fun row => fun c =>
          if c = "tactics" then Cell.strs (classify (row col) d) else row c) } := by
  simp [run_classifier, h]

/-! The claims. -/

/-- C1: for every string text and dictionary, a category is reported as
detected — flag value 1 in `detect_tactics`, name listed by `classify` —
iff at least one of that category's phrases is a substring of the
lowercased text; and `matched_terms` is exactly `allMatches`: the in-order,
category-by-category concatenation of every phrase occurring in the
lowercased text, so a phrase appearing under several categories is kept
once per category (no deduplication across categories). -/
theorem claim_C1 (s : Str) (d : Dictionary) (cat : String) :
    (flagLookup (detect_tactics (Cell.str s) d).flags cat = some 1
      ↔ ∃ ts, (cat, ts) ∈ d ∧ ∃ t ∈ ts, t <:+: pyLower s)
  ∧ (cat ∈ classify (Cell.str s) d
      ↔ ∃ ts, (cat, ts) ∈ d ∧ ∃ t ∈ ts, t <:+: pyLower s)
  ∧ (detect_tactics (Cell.str s) d).matched_terms = allMatches (pyLower s) d :=
  ⟨detect_flag_iff s d cat, classify_mem_iff s d cat, detect_matched_eq s d⟩

/-- C3 counterexample: "never raises an error" fails for `detect_tactics`
on a list input: `pd.isna(['a', 'b'])` returns the two-element boolean
array `[False, False]`, whose truth test in the guard raises
`ValueError`, rather than returning the all-false/empty result. -/
theorem claim_C3_counterexample :
    detect_tactics_checked (Cell.strs ["a", "b"]) sampleDict
      = Except.error NpError.valueError := rfl

/-- C3 amended: for every missing or scalar non-string input both
classifiers return the all-zero-flag, empty-`matched_terms` result
without raising; `classify` (whose only guard is `isinstance`) is total
for list values too; but `detect_tactics`' guard `pd.isna(text)` raises
`ValueError` on a multi-element list cell, while a one-element list cell
still yields the empty result. -/
theorem claim_C3_amended (d : Dictionary) (n : Int) (l : List String) :
    detect_tactics_checked Cell.na d = Except.ok emptyResults
  ∧ detect_tactics_checked (Cell.num n) d = Except.ok emptyResults
  ∧ emptyResults
      = { flags := [("urgency_marketing", 0), ("exclusive_marketing", 0)],
          matched_terms := [] }
  ∧ classify Cell.na d = []
  ∧ classify (Cell.num n) d = []
  ∧ classify (Cell.strs l) d = []
  ∧ (2 ≤ l.length →
      detect_tactics_checked (Cell.strs l) d = Except.error NpError.valueError)
  ∧ (l.length = 1 →
      detect_tactics_checked (Cell.strs l) d = Except.ok emptyResults) := by
  refine ⟨rfl, rfl, rfl, rfl, rfl, rfl, ?_, ?_⟩
  · intro h
    have hr : isnaRaises (Cell.strs l) = true := by
      simp [isnaRaises]
      omega
    simp [detect_tactics_checked, hr]
  · intro h
    have hr : isnaRaises (Cell.strs l) = false := by
      simp [isnaRaises, h]
    simp [detect_tactics_checked, hr, detect_tactics]

/-- Witness for the amended C3 at concrete inputs: the two-element list
raises, the one-element list yields the empty result, and `classify`
stays total on the same list. -/
theorem claim_C3_witness :
    (2 ≤ (["a", "b"] : List String).length)
  ∧ detect_tactics_checked (Cell.strs ["a", "b"]) sampleDict
      = Except.error NpError.valueError
  ∧ ((["a"] : List String).length = 1)
  ∧ detect_tactics_checked (Cell.strs ["a"]) sampleDict = Except.ok emptyResults
  ∧ classify (Cell.strs ["a", "b"]) sampleDict = [] :=
  ⟨by decide,
    (claim_C3_amended sampleDict 0 ["a", "b"]).2.2.2.2.2.2.1 (by decide),
    by decide,
    (claim_C3_amended sampleDict 0 ["a"]).2.2.2.2.2.2.2 (by decide),
    (claim_C3_amended sampleDict 0 ["a", "b"]).2.2.2.2.2.1⟩

/-- C4: classification is deterministic (both functions are pure) and
case-insensitive: uppercasing the text changes neither the flags with the
matched-terms list of `detect_tactics` nor the category list of
`classify`. -/
theorem claim_C4 (s : Str) (d : Dictionary) :
    detect_tactics (Cell.str (pyUpper s)) d = detect_tactics (Cell.str s) d
  ∧ classify (Cell.str (pyUpper s)) d = classify (Cell.str s) d := by
  constructor
  · simp only [detect_tactics, pyLower_pyUpper]
  · simp only [classify, pyLower_pyUpper]

/-- C5: whenever the text column exists, `process_data` (and the second
app's classifier run) succeeds and the output has exactly as many rows as
the input, with row `i` of the output obtained from row `i` of the input
(`annotateRow`), so order and count are preserved 1:1. -/
theorem claim_C5 (df : DataFrame) (col : String) (d : Dictionary)
    (h : col ∈ df.cols) :
    (∃ out, process_data df col d = Except.ok out
      ∧ out.data.length = df.data.length
      ∧ ∀ i : Nat, out.data[i]? = (df.data[i]?).map (annotateRow col d))
  ∧ (∃ out, run_classifier df col d = Except.ok out
      ∧ out.data.length = df.data.length) := by
  constructor
  · refine ⟨_, process_data_ok df col d h, by simp, ?_⟩
    intro i
    simp [List.getElem?_map]
  · exact ⟨_, run_classifier_ok df col d h, by simp⟩

/-- Witness for C5 at a concrete frame and dictionary. -/
theorem claim_C5_witness :
    ("Statement" ∈ sampleFrame.cols)
  ∧ ((∃ out, process_data sampleFrame "Statement" sampleDict = Except.ok out
      ∧ out.data.length = sampleFrame.data.length
      ∧ ∀ i : Nat, out.data[i]?
          = (sampleFrame.data[i]?).map (annotateRow "Statement" sampleDict))
    ∧ (∃ out, run_classifier sampleFrame "Statement" sampleDict = Except.ok out
      ∧ out.data.length = sampleFrame.data.length)) :=
  ⟨by simp [sampleFrame],
    claim_C5 sampleFrame "Statement" sampleDict (by simp [sampleFrame])⟩

/-- C6 counterexample: the claim "every original column's values are
unchanged" fails when the input frame already has a column named
`matched_terms`: `clashFrame`'s row holds `Cell.num 5` there, yet in the
output of `process_data` that column is overwritten with the joined match
string, so not every output row preserves the original value. -/
theorem claim_C6_counterexample :
    ¬ (∀ out, process_data clashFrame "text" [] = Except.ok out →
        ∀ r' ∈ out.data, r' "matched_terms" = clashRow "matched_terms") := by
  intro hcl
  have hok := process_data_ok clashFrame "text" [] (by simp [clashFrame])
  have hmem : annotateRow "text" [] clashRow
      ∈ (clashFrame.data.map (annotateRow "text" [])) := by
    simp [clashFrame]
  have h2 := hcl _ hok (annotateRow "text" [] clashRow) hmem
  exact absurd h2 (by decide)

/-- C6 amended: `process_data` returns a fresh frame (the model is a pure
function over the input, matching `df.copy()` in the source, so the input
is not mutated and reruns are independent), and every original column
EXCEPT the three result columns `urgency_detected`, `exclusive_detected`,
`matched_terms` keeps its values; a clashing original column of one of
those three names is overwritten rather than preserved. -/
theorem claim_C6_amended (df : DataFrame) (col : String) (d : Dictionary)
    (h : col ∈ df.cols) :
    ∃ out, process_data df col d = Except.ok out
      ∧ ∀ c, ¬ c ∈ addedCols →
          ∀ i : Nat, (out.data[i]?).map (fun r => r c)
            = (df.data[i]?).map (fun r => r c) := by
  refine ⟨_, process_data_ok df col d h, ?_⟩
  intro c hc i
  rw [List.getElem?_map]
  cases df.data[i]? with
  | none => rfl
  | some row => simp [annotateRow_not_added col d row c hc]

/-- Witness for the amended C6 at a concrete frame. -/
theorem claim_C6_witness :
    ("text" ∈ clashFrame.cols)
  ∧ (∃ out, process_data clashFrame "text" [] = Except.ok out
      ∧ ∀ c, ¬ c ∈ addedCols →
          ∀ i : Nat, (out.data[i]?).map (fun r => r c)
            = (clashFrame.data[i]?).map (fun r => r c)) :=
  ⟨by simp [clashFrame],
    claim_C6_amended clashFrame "text" [] (by simp [clashFrame])⟩

/-- C7: when the chosen text column is not among the frame's columns,
`process_data` fails with the key error on that column (the spec's
`ConfigurationError`); the error branch never touches `df.data`, so no
partially processed table is produced. -/
theorem claim_C7 (df : DataFrame) (col : String) (d : Dictionary)
    (h : ¬ col ∈ df.cols) :
    process_data df col d = Except.error (PdError.keyError col) := by
  simp [process_data, h]

/-- Witness for C7 at a concrete frame and missing column. -/
theorem claim_C7_witness :
    (¬ "Missing" ∈ sampleFrame.cols)
  ∧ process_data sampleFrame "Missing" sampleDict
      = Except.error (PdError.keyError "Missing") :=
  ⟨by simp [sampleFrame],
    claim_C7 sampleFrame "Missing" sampleDict (by simp [sampleFrame])⟩

/-- C2 counterexample: the JSON `Apply changes` parser succeeds on
`{"urgency_marketing": ["  HURRY  "]}` and stores the phrase verbatim —
neither trimmed nor lowercased — contradicting "on every successful parse,
each phrase ... is trimmed ... and every phrase is lowercased"; and a
well-formed JSON value that is not an object (`3`) does not produce the
claimed `ParseError`: it escapes the handler as an uncaught
`AttributeError`. -/
theorem claim_C2_counterexample :
    applyChanges (some (JValue.jobj [("urgency_marketing",
        JValue.jarr [JValue.jstr (lit "  HURRY  ")])]))
      = ApplyResult.ok [("urgency_marketing", [JValue.jstr (lit "  HURRY  ")])]
  ∧ pyStrip (lit "  HURRY  ") ≠ lit "  HURRY  "
  ∧ pyLower (lit "  HURRY  ") ≠ lit "  HURRY  "
  ∧ applyChanges (some (JValue.jnum 3)) = ApplyResult.uncaught :=
  ⟨rfl, by decide, by decide, rfl⟩

/-- C2 amended: invalid JSON is caught (reported as a parse error), a
decoded top-level value that is not an object raises an uncaught error
instead of the claimed `ParseError`, an object input never escapes the
handler (it parses or its error is caught), and on success every stored
phrase is exactly an element of `set(v)` for the verbatim source value —
no trimming, lowercasing or discarding happens on this path.  Separately,
the newline-delimited term parser of the main app never fails, and each
term it produces is trimmed, lowercased and non-empty. -/
theorem claim_C2_amended :
    applyChanges none = ApplyResult.caught
  ∧ (∀ j, isObjB j = false → applyChanges (some j) = ApplyResult.uncaught)
  ∧ (∀ fields, ¬ applyChanges (some (JValue.jobj fields)) = ApplyResult.uncaught)
  ∧ (∀ fields d, applyChanges (some (JValue.jobj fields)) = ApplyResult.ok d →
      ∀ p ∈ d, ∃ v, (p.1, v) ∈ fields ∧ pySet v = some p.2)
  ∧ (∀ s t, t ∈ parse_terms s → pyStrip t = t ∧ pyLower t = t ∧ t ≠ []) := by
  refine ⟨rfl, applyChanges_not_obj, applyChanges_jobj_not_uncaught, ?_, parse_terms_mem⟩
  intro fields d h
  have hc : collectSets fields = some d := by
    simp only [applyChanges] at h
    cases hcs : collectSets fields with
    | none => rw [hcs] at h; exact absurd h (by intro hx; cases hx)
    | some d' => rw [hcs] at h; cases h; rfl
  exact collectSets_mem fields d hc

/-- Witness for the amended C2 at concrete inputs. -/
theorem claim_C2_amended_witness :
    isObjB (JValue.jnum 3) = false
  ∧ applyChanges (some (JValue.jnum 3)) = ApplyResult.uncaught
  ∧ (lit "act now") ∈ parse_terms (lit " Act NOW \n")
  ∧ pyStrip (lit "act now") = lit "act now"
  ∧ pyLower (lit "act now") = lit "act now"
  ∧ lit "act now" ≠ [] :=
  ⟨rfl, claim_C2_amended.2.1 (JValue.jnum 3) rfl, by decide,
    claim_C2_amended.2.2.2.2 (lit " Act NOW \n") (lit "act now") (by decide)⟩

/-- C8 (spec-modelled `clean_sentence`): the empty string stays empty; the
spec's examples hold — `"hello world"` gains a period, `"Already done."`
is unchanged, a typographic apostrophe is normalized with whitespace runs
collapsed and ends trimmed, emoji are removed when stripping is enabled —
and every non-empty result ends in `.`, `!` or `?`; the function is total,
so it never fails. -/
theorem claim_C8 (t : Str) (b : Bool) :
    clean_sentence [] b = []
  ∧ clean_sentence (lit "hello world") b = lit "hello world."
  ∧ clean_sentence (lit "Already done.") b = lit "Already done."
  ∧ clean_sentence (lit "don’t   stop ") b = lit "don't stop."
  ∧ clean_sentence (lit "Great! 🎉🎉 Buy now") true = lit "Great! Buy now."
  ∧ (clean_sentence t b = [] ∨
      ∃ n, (clean_sentence t b).getLast? = some n ∧ (n = 46 ∨ n = 33 ∨ n = 63)) := by
  refine ⟨?_, ?_, ?_, ?_, ?_, ?_⟩
  · cases b <;> rfl
  · cases b <;> decide
  · cases b <;> decide
  · cases b <;> decide
  · decide
  · exact endPunct_terminator _

/-- C9: classification is monotone in the dictionary: growing each
category's phrase set (same category names, `dictLE`) can only grow the
set of detected categories of `classify`, the `matched_terms` of
`detect_tactics`, and the set of categories whose flag is 1. -/
theorem claim_C9 (s : Str) (d d' : Dictionary) (h : dictLE d d' = true) :
    (∀ k, k ∈ classify (Cell.str s) d → k ∈ classify (Cell.str s) d')
  ∧ (∀ t, t ∈ (detect_tactics (Cell.str s) d).matched_terms →
      t ∈ (detect_tactics (Cell.str s) d').matched_terms)
  ∧ (∀ k, flagLookup (detect_tactics (Cell.str s) d).flags k = some 1 →
      flagLookup (detect_tactics (Cell.str s) d').flags k = some 1) := by
  have hspec := dictLE_spec d d' h
  refine ⟨?_, ?_, ?_⟩
  · intro k hk
    rw [classify_mem_iff] at hk ⊢
    obtain ⟨ts, hmem, t, ht, hsub⟩ := hk
    obtain ⟨q, hq, hname, hsubset⟩ := hspec (k, ts) hmem
    have hkq : (k, q.2) = q := by
      rw [show k = q.1 from hname]
    exact ⟨q.2, hkq.symm ▸ hq, t, hsubset t ht, hsub⟩
  · intro t ht
    rw [detect_matched_eq, mem_allMatches_iff] at ht ⊢
    obtain ⟨p, hp, htp, hsub⟩ := ht
    obtain ⟨q, hq, _, hsubset⟩ := hspec p hp
    exact ⟨q, hq, hsubset t htp, hsub⟩
  · intro k hk
    rw [detect_flag_iff] at hk ⊢
    obtain ⟨ts, hmem, t, ht, hsub⟩ := hk
    obtain ⟨q, hq, hname, hsubset⟩ := hspec (k, ts) hmem
    have hkq : (k, q.2) = q := by
      rw [show k = q.1 from hname]
    exact ⟨q.2, hkq.symm ▸ hq, t, hsubset t ht, hsub⟩

/-- Witness for C9 at concrete dictionaries with `smallDict ⊑ bigDict`. -/
theorem claim_C9_witness :
    dictLE smallDict bigDict = true
  ∧ ((∀ k, k ∈ classify (Cell.str (lit "hurry up")) smallDict →
        k ∈ classify (Cell.str (lit "hurry up")) bigDict)
    ∧ (∀ t, t ∈ (detect_tactics (Cell.str (lit "hurry up")) smallDict).matched_terms →
        t ∈ (detect_tactics (Cell.str (lit "hurry up")) bigDict).matched_terms)
    ∧ (∀ k, flagLookup (detect_tactics (Cell.str (lit "hurry up")) smallDict).flags k
          = some 1 →
        flagLookup (detect_tactics (Cell.str (lit "hurry up")) bigDict).flags k
          = some 1)) :=
  ⟨by decide, claim_C9 (lit "hurry up") smallDict bigDict (by decide)⟩

/-- C10 counterexample: with a dictionary whose category is named
`flash_sale` and whose phrase matches, the results dict of
`detect_tactics` does NOT have flags for exactly the two default
categories: `results['flash_sale'] = 1` adds a third flag entry. -/
theorem claim_C10_counterexample :
    (detect_tactics (Cell.str (lit "big sale"))
        [("flash_sale", [lit "sale"])]).flags.map Prod.fst
      ≠ ["urgency_marketing", "exclusive_marketing"] := by
  decide

/-- C10 amended: the results dict always starts from flags for exactly
`urgency_marketing` and `exclusive_marketing` (both 0) plus
`matched_terms`, but a category of any other name is added as an extra
flag entry exactly when one of its phrases matches; the output table of
`process_data` still gains only the three fixed columns
`urgency_detected`, `exclusive_detected`, `matched_terms` (appended when
not already present), never a column for another category, while every
matched phrase of any category still reaches `matched_terms`. -/
theorem claim_C10_amended (s : Str) (d : Dictionary) (k : String)
    (df : DataFrame) (col : String) (h : col ∈ df.cols) :
    (k ∈ (detect_tactics (Cell.str s) d).flags.map Prod.fst
      ↔ k = "urgency_marketing" ∨ k = "exclusive_marketing"
          ∨ matchedIn (pyLower s) d k = true)
  ∧ (∃ out, process_data df col d = Except.ok out
      ∧ out.cols = df.cols ++ addedCols.filter (fun c => !df.cols.contains c))
  ∧ (detect_tactics (Cell.str s) d).matched_terms = allMatches (pyLower s) d := by
  refine ⟨?_, ⟨_, process_data_ok df col d h, rfl⟩, detect_matched_eq s d⟩
  show k ∈ (d.foldl (detectStep (pyLower s)) emptyResults).flags.map Prod.fst ↔ _
  rw [foldl_detectStep_keys]
  simp [emptyResults, initFlags, or_assoc]

/-- Witness for the amended C10 at concrete inputs. -/
theorem claim_C10_witness :
    ("Statement" ∈ sampleFrame.cols)
  ∧ (("flash_sale" ∈ (detect_tactics (Cell.str (lit "big sale"))
        [("flash_sale", [lit "sale"])]).flags.map Prod.fst
      ↔ "flash_sale" = "urgency_marketing" ∨ "flash_sale" = "exclusive_marketing"
          ∨ matchedIn (pyLower (lit "big sale")) [("flash_sale", [lit "sale"])]
              "flash_sale" = true)
    ∧ (∃ out, process_data sampleFrame "Statement" [("flash_sale", [lit "sale"])]
          = Except.ok out
        ∧ out.cols = sampleFrame.cols
            ++ addedCols.filter (fun c => !sampleFrame.cols.contains c))
    ∧ (detect_tactics (Cell.str (lit "big sale"))
          [("flash_sale", [lit "sale"])]).matched_terms
        = allMatches (pyLower (lit "big sale")) [("flash_sale", [lit "sale"])]) :=
  ⟨by simp [sampleFrame],
    claim_C10_amended (lit "big sale") [("flash_sale", [lit "sale"])] "flash_sale"
      sampleFrame "Statement" (by simp [sampleFrame])⟩

end TacticApp
